import Mathlib

/-!
Verification of the natural-language specification of the
common_neural_preprocessing repository against its two source files,
src/h5_handling.py and src/bnpm/plotting_helpers.py.

The development shallowly embeds the parts of the code the claims touch:

* The HDF5 side (h5_handling.py).  A Python dict whose leaves are
  serializable values is embedded as the nested inductive PyVal; leaf
  payloads are opaque and modelled as Nat.  An open h5py file is embedded
  as the tree H5Obj (groups are ordered association lists of named
  children, datasets hold a payload).  h5py paths such as the strings
  built by make_h5_tree ("", "/", "//a", "//a/b") are modelled by their
  normalized component lists (List String); h5py resolves a path with a
  leading slash from the file root no matter which group object it is
  indexed on, which is why the embedded make_h5_tree carries the root
  tree and an absolute component path instead of the subgroup handle.
  create_group / create_dataset raise when the name already exists or the
  path does not lead to a group; a raised exception is modelled as none.
* write_dict_to_h5 works over a store of named files (an association
  list path -> H5Obj); the h5py.File open modes are modelled from the
  h5py documentation: "w-" refuses to open an existing path (the source
  default), "w" truncates.  On an error the store is returned unchanged
  together with the error name.  The partially written content of a file
  whose write raised halfway is not modelled (no claim depends on it).
* show_group_items renders each top-level item to the list of printed
  lines; an item is an h5py Group, a Python dict, an array-like object
  (something with shape and dtype attributes, rendered strings here) or
  anything else.  An h5py Group has no shape/dtype attributes, so the
  hasattr test in the source is false for it.
* simple_cmap (plotting_helpers.py).  Python floats are modelled as ℚ.
  Colors are rgb triples (matplotlib.colors.colorConverter.to_rgb is the
  identity on such triples).  The cdict built by the source is kept as
  the three per-channel lists of (position, value, value) control
  points; evalSegments is the piecewise-linear evaluation a
  LinearSegmentedColormap performs on such control points (left and
  right values coincide for every point simple_cmap builds).
* Select_ROI.  The state carries the fields the claims mention plus the
  image dimensions (the image pixels themselves are only ever read for
  their shape by the modelled operations) and whether the
  button_release_event callback is still connected.  A matplotlib click
  outside the axes is delivered with event.xdata / event.ydata equal to
  None, modelled as none.  skimage.draw.polygon is modelled as an
  even-odd point-in-polygon fill over the pixel grid; calling it is
  preceded in the source by np.array(pts) and pts[:, 1], and on a
  zero-point polygon that indexing raises IndexError, modelled by
  computeMask returning none.  The source calls skimage.draw.polygon
  without a shape argument, so a polygon reaching beyond the image
  yields filled pixels outside it and mask_frame[pts_y, pts_x] = 1 then
  raises IndexError, also modelled by computeMask returning none.
  _disconnect_mpl mutates state before the mask loop, so its embedding
  returns the mutated state also on error.
-/

/-! ## Data model: nested Python mappings and HDF5 trees -/

/-- A value inside a nested Python dict handed to the h5 writer: either a
further mapping of string keys or a serializable leaf (leaf payloads are
opaque, modelled as Nat). -/
inductive PyVal where
  | data : Nat → PyVal
  | dict : List (String × PyVal) → PyVal

/-- An open HDF5 object: a group with named, ordered children, or a
dataset holding an opaque payload. -/
inductive H5Obj where
  | group : List (String × H5Obj) → H5Obj
  | dset : Nat → H5Obj

/-- Child lookup by name in a group entry list (first match). -/
def findEntry : List (String × H5Obj) → String → Option H5Obj
  | [], _ => none
  | (k', t) :: rest, k => if k' = k then some t else findEntry rest k

/-- Rewrite the first entry named k through f; none when the name is
absent or f fails. -/
def replaceEntry (k : String) (f : H5Obj → Option H5Obj) :
    List (String × H5Obj) → Option (List (String × H5Obj))
  | [] => none
  | (k', t) :: rest =>
    if k' = k then (f t).map (fun t' => (k', t') :: rest)
    else (replaceEntry k f rest).map (fun rest' => (k', t) :: rest')

/-- Apply an entry-list transformation to an object that must be a
group; a dataset cannot be indexed further, giving none. -/
def applyGroup (f : List (String × H5Obj) → Option (List (String × H5Obj))) :
    H5Obj → Option H5Obj
  | H5Obj.group es => (f es).map H5Obj.group
  | H5Obj.dset _ => none

/-- Apply an entry-list transformation to the group reached from the
root by the given absolute path; none when the path is broken. -/
def updateAt : H5Obj → List String →
    (List (String × H5Obj) → Option (List (String × H5Obj))) → Option H5Obj
  | t, [], f => applyGroup f t
  | t, k :: ks, f => applyGroup (replaceEntry k (fun sub => updateAt sub ks f)) t

/-- Read the object at an absolute path. -/
def lookupPath : H5Obj → List String → Option H5Obj
  | t, [] => some t
  | H5Obj.group es, k :: ks => (findEntry es k).bind (fun t => lookupPath t ks)
  | H5Obj.dset _, _ :: _ => none

/-- h5py group.create_group(key) at an absolute path: fails when the
name exists already (h5py raises ValueError) or the path is broken. -/
def createGroup (t : H5Obj) (gs : List String) (key : String) : Option H5Obj :=
  updateAt t gs (fun es => if (findEntry es key).isSome then none
                           else some (es ++ [(key, H5Obj.group [])]))

/-- h5py group.create_dataset(key, data=v) at an absolute path. -/
def createDataset (t : H5Obj) (gs : List String) (key : String) (v : Nat) :
    Option H5Obj :=
  updateAt t gs (fun es => if (findEntry es key).isSome then none
                           else some (es ++ [(key, H5Obj.dset v)]))

/-- The recursive writer make_h5_tree of h5_handling.py.  For every
(key, val) item of the dict in order: when val is itself a dict it
creates a group named key at the current group path and recurses beneath
it, otherwise it creates a dataset named key there.  The Python
group_string ('' normalized to '/', children '<gs>/<key>') is the
component list gs; the h5_obj argument is the file root (the source
indexes with absolute paths, which h5py resolves from the root). -/
def make_h5_tree : List (String × PyVal) → H5Obj → List String → Option H5Obj
  | [], t, _ => some t
  | (key, PyVal.dict sub) :: rest, t, gs =>
    (createGroup t gs key).bind (fun t1 =>
      (make_h5_tree sub t1 (gs ++ [key])).bind (fun t2 =>
        make_h5_tree rest t2 gs))
  | (key, PyVal.data v) :: rest, t, gs =>
    (createDataset t gs key v).bind (fun t1 => make_h5_tree rest t1 gs)

/-- Local characterization of make_h5_tree: the same per-item steps
performed directly on the entry list of the group the writer works in
(used to factor the tree-surgery reasoning out of the recursion). -/
def buildEntries : List (String × PyVal) → List (String × H5Obj) →
    Option (List (String × H5Obj))
  | [], es => some es
  | (key, PyVal.dict sub) :: rest, es =>
    (if (findEntry es key).isSome then none
     else some (es ++ [(key, H5Obj.group [])])).bind (fun es1 =>
      (replaceEntry key (applyGroup (fun es' => buildEntries sub es')) es1).bind
        (fun es2 => buildEntries rest es2))
  | (key, PyVal.data v) :: rest, es =>
    (if (findEntry es key).isSome then none
     else some (es ++ [(key, H5Obj.dset v)])).bind (fun es1 => buildEntries rest es1)

/-- Key membership among the items of a Python dict level. -/
def hasKeyPy (k : String) : List (String × PyVal) → Bool
  | [] => false
  | (k', _) :: rest => (k' == k) || hasKeyPy k rest

mutual
/-- Well-formedness of an embedded Python value: the keys of every dict
level are distinct (true of every real Python dict, whose keys are
unique by construction). -/
def wfVal : PyVal → Bool
  | PyVal.data _ => true
  | PyVal.dict es => wfEntries es

/-- Well-formedness of one dict level together with everything below. -/
def wfEntries : List (String × PyVal) → Bool
  | [] => true
  | (k, v) :: rest => !(hasKeyPy k rest) && wfVal v && wfEntries rest
end

mutual
/-- The HDF5 image of a Python value: dict levels become groups with the
same keys in the same order, leaves become datasets. -/
def mirrorVal : PyVal → H5Obj
  | PyVal.data v => H5Obj.dset v
  | PyVal.dict es => H5Obj.group (mirrorEntries es)

/-- The HDF5 image of one dict level. -/
def mirrorEntries : List (String × PyVal) → List (String × H5Obj)
  | [] => []
  | (k, v) :: rest => (k, mirrorVal v) :: mirrorEntries rest
end

mutual
/-- A matching reader for the round-trip claim: convert an HDF5 tree
back to a nested mapping (groups to dicts, datasets to leaves). -/
def readVal : H5Obj → PyVal
  | H5Obj.dset v => PyVal.data v
  | H5Obj.group es => PyVal.dict (readEntries es)

/-- Read one group level back to a dict level. -/
def readEntries : List (String × H5Obj) → List (String × PyVal)
  | [] => []
  | (k, t) :: rest => (k, readVal t) :: readEntries rest
end

/-- The generator h5py_dataset_iterator of h5_handling.py, as the list
of (path, payload) pairs it yields over the entries of a group: for each
key in order it yields a dataset child at path pre + "/" + key and
descends into a group child with that path as the new pre. -/
def h5py_dataset_iterator : List (String × H5Obj) → String → List (String × Nat)
  | [], _ => []
  | (key, H5Obj.dset v) :: rest, pre =>
    (pre ++ "/" ++ key, v) :: h5py_dataset_iterator rest pre
  | (key, H5Obj.group es) :: rest, pre =>
    h5py_dataset_iterator es (pre ++ "/" ++ key) ++ h5py_dataset_iterator rest pre

/-- Modelled from the spec wording for the round-trip claim: the
expected enumeration of a nested mapping's leaf values, each with the
slash-separated path of its keys ("the original mapping's structure,
keys, and leaf values"). -/
def flattenLeaves : List (String × PyVal) → String → List (String × Nat)
  | [], _ => []
  | (key, PyVal.data v) :: rest, pre =>
    (pre ++ "/" ++ key, v) :: flattenLeaves rest pre
  | (key, PyVal.dict sub) :: rest, pre =>
    flattenLeaves sub (pre ++ "/" ++ key) ++ flattenLeaves rest pre

/-! ## write_dict_to_h5 over a store of files -/

/-- Lookup of a file by path in the store. -/
def findFile : List (String × H5Obj) → String → Option H5Obj
  | [], _ => none
  | (p, t) :: rest, q => if p = q then some t else findFile rest q

/-- Replace or add a file in the store. -/
def setFile : List (String × H5Obj) → String → H5Obj → List (String × H5Obj)
  | [], q, t => [(q, t)]
  | (p, u) :: rest, q, t => if p = q then (p, t) :: rest else (p, u) :: setFile rest q t

/-- The two write modes write_dict_to_h5 accepts; the source default is
wminus ('w-', refuse to overwrite). -/
inductive WriteMode where
  | w : WriteMode
  | wminus : WriteMode
deriving DecidableEq

/-- write_dict_to_h5 of h5_handling.py over a file store.  Opening with
'w-' an existing path raises FileExistsError before anything is written
(h5py documented behavior), so the store comes back unchanged; otherwise
the dict is written into a fresh root by make_h5_tree.  The result pairs
the new store with the raised error, if any.  (The show_item_tree
printout on success and the partial content of a file whose write raised
halfway are not modelled; no claim depends on them.) -/
def write_dict_to_h5 (fs : List (String × H5Obj)) (path_save : String)
    (input_dict : List (String × PyVal)) (write_mode : WriteMode) :
    List (String × H5Obj) × Option String :=
  if write_mode = WriteMode.wminus ∧ (findFile fs path_save).isSome then
    (fs, some "FileExistsError")
  else
    match make_h5_tree input_dict (H5Obj.group []) [] with
    | some t => (setFile fs path_save t, none)
    | none => (fs, some "ValueError")

/-! ## show_group_items -/

/-- What a top-level item of the object handed to show_group_items can
be: an h5py Group, a Python dict, something array-like (has shape and
dtype attributes, both rendered to strings here), or anything else
(rendered type name kept). -/
inductive HItem where
  | h5group : HItem
  | pydict : HItem
  | arraylike : String → String → HItem
  | other : String → HItem

/-- isinstance(item, h5py.Group). -/
def isH5Group : HItem → Bool
  | HItem.h5group => true
  | _ => false

/-- isinstance(item, dict). -/
def isPyDict : HItem → Bool
  | HItem.pydict => true
  | _ => false

/-- hasattr(item, 'shape') and hasattr(item, 'dtype'); an h5py Group has
neither attribute. -/
def hasShapeDtype : HItem → Bool
  | HItem.arraylike _ _ => true
  | _ => false

/-- str(type(item)) as far as the claims need it. -/
def typeStr : HItem → String
  | HItem.h5group => "h5py Group"
  | HItem.pydict => "dict"
  | HItem.arraylike _ _ => "ndarray"
  | HItem.other s => s

/-- The group/dict marker line printed by show_group_items. -/
def markerLine (ii : Nat) (key : String) : String :=
  toString (ii + 1) ++ ". " ++ key ++ ":----------------"

/-- The shape/dtype line printed for an array-like item. -/
def shapeLine (ii : Nat) (key shape dtype : String) : String :=
  toString (ii + 1) ++ ". " ++ key ++ ":   shape=" ++ shape ++ " , dtype=" ++ dtype

/-- The fallback type line. -/
def typeLine (ii : Nat) (key tname : String) : String :=
  toString (ii + 1) ++ ". " ++ key ++ ":   type=" ++ tname

/-- The lines the body of the show_group_items loop prints for one item:
a first independent if for the Group marker, then an if/else for the
dict marker versus the shape or type line (the two ifs are separate, so
a Group also reaches the else of the dict test). -/
def itemLines (ii : Nat) (key : String) (it : HItem) : List String :=
  (if isH5Group it then [markerLine ii key] else []) ++
  (if isPyDict it then [markerLine ii key]
   else if hasShapeDtype it then
     (match it with
      | HItem.arraylike sh dt => [shapeLine ii key sh dt]
      | _ => [typeLine ii key (typeStr it)])
   else [typeLine ii key (typeStr it)])

/-- The enumerate loop of show_group_items from a given start index. -/
def show_group_items_from (ii : Nat) : List (String × HItem) → List String
  | [] => []
  | (key, it) :: rest => itemLines ii key it ++ show_group_items_from (ii + 1) rest

/-- show_group_items of h5_handling.py: all lines printed over the
top-level items, in enumeration order. -/
def show_group_items (items : List (String × HItem)) : List String :=
  show_group_items_from 0 items

/-! ## simple_cmap -/

/-- A LinearSegmentedColormap as simple_cmap builds it: per channel the
cdict control points (position, value-left, value-right), plus the
under/over/bad colors and the name. -/
structure LinearSegmentedCmap where
  red : List (ℚ × ℚ × ℚ)
  green : List (ℚ × ℚ × ℚ)
  blue : List (ℚ × ℚ × ℚ)
  under : ℚ × ℚ × ℚ
  over : ℚ × ℚ × ℚ
  bad : ℚ × ℚ × ℚ
  name : String

/-- One channel of the cdict simple_cmap builds: the first color at
position 0.0, then the i-th remaining color at (i+1)/(n_colors-1), each
entry with equal left and right values. -/
def channelPoints (c0 : ℚ) (rest : List ℚ) (n : Nat) : List (ℚ × ℚ × ℚ) :=
  (0, c0, c0) ::
    rest.enum.map (fun p => (((p.1 : ℚ) + 1) / ((n : ℚ) - 1), p.2, p.2))

/-- simple_cmap of plotting_helpers.py on rgb triples (colorConverter is
the identity there): raises ValueError below two colors, otherwise
builds the cdict channels and records the under/over/bad colors. -/
def simple_cmap (colors : List (ℚ × ℚ × ℚ)) (und ovr bd : ℚ × ℚ × ℚ)
    (nm : String) : Except String LinearSegmentedCmap :=
  if colors.length ≤ 1 then Except.error "Must specify at least two colors"
  else
    match colors with
    | [] => Except.error "Must specify at least two colors"
    | c0 :: cs =>
      Except.ok
        { red := channelPoints c0.1 (cs.map (fun c => c.1)) colors.length
          green := channelPoints c0.2.1 (cs.map (fun c => c.2.1)) colors.length
          blue := channelPoints c0.2.2 (cs.map (fun c => c.2.2)) colors.length
          under := und
          over := ovr
          bad := bd
          name := nm }

/-- The control-point positions of one cdict channel. -/
def positionsOf (ch : List (ℚ × ℚ × ℚ)) : List ℚ := ch.map (fun p => p.1)

/-- Piecewise-linear interpolation above the control point (x0, y): the
evaluation a LinearSegmentedColormap performs between its points. -/
def evalAbove (x0 y : ℚ) : List (ℚ × ℚ × ℚ) → ℚ → ℚ
  | [], _ => y
  | (x1, y0, y1) :: rest, x =>
    if x ≤ x1 then y + (y0 - y) * (x - x0) / (x1 - x0)
    else evalAbove x1 y1 rest x

/-- Evaluate one cdict channel at a position in [0, 1]. -/
def evalSegments : List (ℚ × ℚ × ℚ) → ℚ → ℚ
  | [], _ => 0
  | (x0, _, y1) :: rest, x =>
    if x ≤ x0 then y1 else evalAbove x0 y1 rest x

/-- Evaluate the whole colormap at a position, channel by channel. -/
def evalCmap (cm : LinearSegmentedCmap) (x : ℚ) : ℚ × ℚ × ℚ :=
  (evalSegments cm.red x, evalSegments cm.green x, evalSegments cm.blue x)

/-! ## Select_ROI -/

/-- The Select_ROI state the claims are about.  img_h and img_w are the
first two dimensions of the copied input image (the modelled operations
read nothing else from it); selected_points, selected_points_last_ROI
and completed_status are the source fields of the same names (leading
underscores dropped); connected records whether the
button_release_event callback is attached; mask_frames is the attribute
_disconnect_mpl creates (absent before, hence Option). -/
structure Select_ROI where
  img_h : Nat
  img_w : Nat
  selected_points : List (List (ℚ × ℚ))
  selected_points_last_ROI : List (ℚ × ℚ)
  completed_status : Bool
  connected : Bool
  mask_frames : Option (List (List (List Bool)))

/-- The state Select_ROI.__init__ leaves behind: empty polygon lists,
not completed, click callback connected, no mask_frames attribute. -/
def Select_ROI.init (h w : Nat) : Select_ROI :=
  { img_h := h, img_w := w, selected_points := [],
    selected_points_last_ROI := [], completed_status := false,
    connected := true, mask_frames := none }

/-- A button_release_event: matplotlib delivers xdata = ydata = None
when the pointer is outside the image axes. -/
structure ClickEvent where
  xdata : Option ℚ
  ydata : Option ℚ

/-- Select_ROI._onclick: a click with a None coordinate returns at once;
otherwise [xdata, ydata] is appended to the in-progress polygon (the
redraw of the overlay touches no modelled field). -/
def onclick (st : Select_ROI) (ev : ClickEvent) : Select_ROI :=
  match ev.xdata, ev.ydata with
  | some x, some y =>
    { st with selected_points_last_ROI := st.selected_points_last_ROI ++ [(x, y)] }
  | _, _ => st

/-- Event delivery: the callback only runs while it is connected
(mpl_disconnect stops delivery). -/
def deliverClick (st : Select_ROI) (ev : ClickEvent) : Select_ROI :=
  if st.connected then onclick st ev else st

/-- Select_ROI._new_ROI: push the in-progress polygon onto the completed
list and start an empty one; nothing else changes. -/
def new_ROI (st : Select_ROI) : Select_ROI :=
  { st with selected_points := st.selected_points ++ [st.selected_points_last_ROI],
            selected_points_last_ROI := [] }

/-- The closed edge list of a polygon (each vertex to the next, last
back to first). -/
def polyEdges : List (ℚ × ℚ) → List ((ℚ × ℚ) × (ℚ × ℚ))
  | [] => []
  | p :: rest => (p :: rest).zip (rest ++ [p])

/-- Whether the horizontal ray from pixel (x, y) crosses one polygon
edge (division-free even-odd crossing test). -/
def crossesRay (x y : ℚ) (e : (ℚ × ℚ) × (ℚ × ℚ)) : Bool :=
  if (e.1.2 ≤ y ↔ e.2.2 ≤ y) then false
  else if e.1.2 < e.2.2 then
    (if 0 < (e.2.1 - e.1.1) * (y - e.1.2) - (x - e.1.1) * (e.2.2 - e.1.2)
     then true else false)
  else
    (if (e.2.1 - e.1.1) * (y - e.1.2) - (x - e.1.1) * (e.2.2 - e.1.2) < 0
     then true else false)

/-- Even-odd point-in-polygon test, the fill rule of
skimage.draw.polygon. -/
def pointInPoly (poly : List (ℚ × ℚ)) (x y : ℚ) : Bool :=
  (polyEdges poly).foldl (fun b e => b != crossesRay x y e) false

/-- A natural number strictly above a rational coordinate (at least its
ceiling), bounding the candidate pixel box of the polygon fill. -/
def natBound (q : ℚ) : Nat := q.num.toNat / q.den + 1

/-- An upper bound for a list of coordinates. -/
def coordBound (qs : List ℚ) : Nat :=
  qs.foldr (fun q acc => max (natBound q) acc) 0

/-- The pixels skimage.draw.polygon(pts[:, 1], pts[:, 0]) yields when
called, as in the source, WITHOUT a shape argument: every grid point of
the polygon's candidate box (clipped at 0 below, unclipped above, as
skimage does without shape) whose center passes the even-odd fill test.
Grid points beyond the vertex bounding box never pass the test, so the
over-approximated box is harmless. -/
def filledPixels (pts : List (ℚ × ℚ)) : List (Nat × Nat) :=
  (List.range (coordBound (pts.map (fun p => p.2)) + 1)).flatMap (fun r : Nat =>
    ((List.range (coordBound (pts.map (fun p => p.1)) + 1)).filter
      (fun c : Nat => pointInPoly pts (c : ℚ) (r : ℚ))).map (fun c : Nat => (r, c)))

/-- One iteration of the mask loop of _disconnect_mpl: np.array(pts)
followed by pts[:, 1] raises IndexError on a zero-point polygon (a
0-element array is 1-D), modelled as none.  Because the source calls
skimage.draw.polygon without a shape argument, a filled pixel outside
the h-by-w image makes mask_frame[pts_y, pts_x] = 1 raise IndexError as
well, also modelled as none.  Otherwise the mask is the h-by-w zeros
array with exactly the filled pixels set. -/
def computeMask (h w : Nat) (pts : List (ℚ × ℚ)) : Option (List (List Bool)) :=
  match pts with
  | [] => none
  | _ :: _ =>
    if (filledPixels pts).any (fun rc => decide (h ≤ rc.1) || decide (w ≤ rc.2)) then
      none
    else
      some ((List.range h).map (fun r : Nat =>
        (List.range w).map (fun c : Nat =>
          (filledPixels pts).any (fun rc => decide (rc.1 = r) && decide (rc.2 = c)))))

/-- The mask loop over all completed polygons: the masks appended before
a failure, and whether the loop ran to completion. -/
def maskLoop (h w : Nat) : List (List (ℚ × ℚ)) →
    List (List (List Bool)) × Bool
  | [] => ([], true)
  | pts :: rest =>
    match computeMask h w pts with
    | none => ([], false)
    | some m =>
      let pr := maskLoop h w rest
      (m :: pr.1, pr.2)

/-- The state mutations _disconnect_mpl performs before its mask loop:
append the in-progress polygon to the completed list, disconnect the
click callback, set _completed_status. -/
def confirmPre (st : Select_ROI) : Select_ROI :=
  { st with selected_points := st.selected_points ++ [st.selected_points_last_ROI],
            connected := false,
            completed_status := true }

/-- Select_ROI._disconnect_mpl: the pre-loop mutations, then mask_frames
is rebuilt by the mask loop; when an iteration raises, the exception
escapes with the mutations done so far in place (error carries that
state). -/
def disconnect_mpl (st : Select_ROI) : Except Select_ROI Select_ROI :=
  let st1 := confirmPre st
  match maskLoop st.img_h st.img_w st1.selected_points with
  | (ms, true) => Except.ok { st1 with mask_frames := some ms }
  | (ms, false) => Except.error { st1 with mask_frames := some ms }

/-- A concrete Select_ROI state over a 3-by-3 image with one triangle in
progress, used for the C3 counterexample.  The three clicks lie inside
the image axes (extent -0.5 to 2.5) and the triangle's filled pixels
(0,0), (0,1), (1,0) all lie inside the 3-by-3 grid, so both Confirm
presses rasterize without an out-of-bounds error. -/
def roiSt0 : Select_ROI :=
  { img_h := 3, img_w := 3, selected_points := [],
    selected_points_last_ROI := [(0, 0), (2, 0), (0, 2)],
    completed_status := false, connected := true, mask_frames := none }

/-- The state after the first Confirm-ROI press on roiSt0. -/
def roiSt1 : Select_ROI := ((disconnect_mpl roiSt0).toOption).getD roiSt0

/-- The state after a second Confirm-ROI press. -/
def roiSt2 : Select_ROI := ((disconnect_mpl roiSt1).toOption).getD roiSt1

/-- A small concrete nested mapping used by the write/read witnesses:
two levels, one subgroup, two leaves. -/
def demoDict : List (String × PyVal) :=
  [("a", PyVal.dict [("b", PyVal.data 1)]), ("c", PyVal.data 2)]

/-! ## Helper lemmas: Select_ROI mask loop -/

theorem maskLoop_true_length (h w : Nat) :
    ∀ ps : List (List (ℚ × ℚ)), (maskLoop h w ps).2 = true →
      (maskLoop h w ps).1.length = ps.length
  | [], _ => rfl
  | pts :: rest, hp => by
    cases hc : computeMask h w pts with
    | none => simp [maskLoop, hc] at hp
    | some m =>
      simp only [maskLoop, hc] at hp ⊢
      simp [maskLoop_true_length h w rest hp]

theorem computeMask_dims (h w : Nat) (pts : List (ℚ × ℚ)) (m : List (List Bool))
    (hc : computeMask h w pts = some m) :
    m.length = h ∧ ∀ row ∈ m, row.length = w := by
  cases pts with
  | nil => simp [computeMask] at hc
  | cons p rest =>
    simp only [computeMask] at hc
    split at hc
    · exact absurd hc (by simp)
    · obtain rfl := Option.some.inj hc
      constructor
      · rw [List.length_map, List.length_range]
      · intro row hrow
        rcases List.mem_map.mp hrow with ⟨r, _, rfl⟩
        rw [List.length_map, List.length_range]

theorem maskLoop_mem_dims (h w : Nat) :
    ∀ (ps : List (List (ℚ × ℚ))) (m : List (List Bool)), m ∈ (maskLoop h w ps).1 →
      m.length = h ∧ ∀ row ∈ m, row.length = w
  | [], m, hm => by simp [maskLoop] at hm
  | pts :: rest, m, hm => by
    cases hc : computeMask h w pts with
    | none => simp [maskLoop, hc] at hm
    | some m0 =>
      simp only [maskLoop, hc, List.mem_cons] at hm
      rcases hm with rfl | hm
      · exact computeMask_dims h w pts m hc
      · exact maskLoop_mem_dims h w rest m hm

theorem maskLoop_append_nil (h w : Nat) :
    ∀ ps : List (List (ℚ × ℚ)), (maskLoop h w (ps ++ [[]])).2 = false
  | [] => rfl
  | pts :: rest => by
    cases hc : computeMask h w pts with
    | none => simp [maskLoop, hc]
    | some m => simp [maskLoop, hc, maskLoop_append_nil h w rest]

/-! ## Claim C2 -/

/-- C2: a pointer-click event whose coordinates fall outside the image
axes is delivered with a None coordinate, and Select_ROI._onclick then
returns at once: no point is appended to the in-progress polygon and no
field of the ROI-selection state changes. -/
theorem onclick_outside_no_change (st : Select_ROI) (ev : ClickEvent)
    (h : ev.xdata = none ∨ ev.ydata = none) : onclick st ev = st := by
  cases hx : ev.xdata with
  | none => cases hy : ev.ydata <;> simp [onclick, hx, hy]
  | some x =>
    cases hy : ev.ydata with
    | none => simp [onclick, hx, hy]
    | some y => rcases h with h | h <;> simp_all

theorem onclick_outside_no_change_witness :
    onclick (Select_ROI.init 4 5) { xdata := none, ydata := some 1 } =
      Select_ROI.init 4 5 :=
  onclick_outside_no_change (Select_ROI.init 4 5)
    { xdata := none, ydata := some 1 } (Or.inl rfl)

/-! ## Claim C4 -/

/-- C4: while point collection is active (callback connected, not
completed), the New-ROI action appends the in-progress polygon to
selected_points, resets the in-progress polygon to empty, and leaves the
machine collecting points: the click callback stays connected and
_completed_status stays false. -/
theorem new_ROI_spec (st : Select_ROI) (hc : st.connected = true)
    (hs : st.completed_status = false) :
    (new_ROI st).selected_points =
        st.selected_points ++ [st.selected_points_last_ROI] ∧
    (new_ROI st).selected_points_last_ROI = [] ∧
    (new_ROI st).connected = true ∧
    (new_ROI st).completed_status = false := by
  refine ⟨rfl, rfl, ?_, ?_⟩ <;> simp [new_ROI, hc, hs]

theorem new_ROI_spec_witness :
    (new_ROI (Select_ROI.init 2 3)).selected_points =
        (Select_ROI.init 2 3).selected_points ++
          [(Select_ROI.init 2 3).selected_points_last_ROI] ∧
    (new_ROI (Select_ROI.init 2 3)).selected_points_last_ROI = [] ∧
    (new_ROI (Select_ROI.init 2 3)).connected = true ∧
    (new_ROI (Select_ROI.init 2 3)).completed_status = false :=
  new_ROI_spec (Select_ROI.init 2 3) rfl rfl

/-! ## Claim C5 -/

/-- C5: writing into an already existing path with the default
non-overwrite mode 'w-' fails with a FileExistsError-style error from
the file open, and the store (the existing file included) is returned
unchanged. -/
theorem write_dict_to_h5_wminus_existing (fs : List (String × H5Obj))
    (path_save : String) (input_dict : List (String × PyVal)) (f : H5Obj)
    (h : findFile fs path_save = some f) :
    write_dict_to_h5 fs path_save input_dict WriteMode.wminus =
      (fs, some "FileExistsError") := by
  simp [write_dict_to_h5, h]

theorem write_dict_to_h5_wminus_existing_witness :
    write_dict_to_h5 [("data.h5", H5Obj.group [])] "data.h5"
        [("x", PyVal.data 7)] WriteMode.wminus =
      ([("data.h5", H5Obj.group [])], some "FileExistsError") :=
  write_dict_to_h5_wminus_existing [("data.h5", H5Obj.group [])] "data.h5"
    [("x", PyVal.data 7)] (H5Obj.group []) rfl

/-! ## Claim C9 -/

theorem show_group_items_from_append (l2 l1 : List (String × HItem)) :
    ∀ ii : Nat, show_group_items_from ii (l1 ++ l2) =
      show_group_items_from ii l1 ++ show_group_items_from (ii + l1.length) l2 := by
  induction l1 with
  | nil => intro ii; simp [show_group_items_from]
  | cons p rest ih =>
    intro ii
    obtain ⟨k, it⟩ := p
    calc show_group_items_from ii (((k, it) :: rest) ++ l2)
        = itemLines ii k it ++ show_group_items_from (ii + 1) (rest ++ l2) := rfl
      _ = itemLines ii k it ++
            (show_group_items_from (ii + 1) rest ++
              show_group_items_from (ii + 1 + rest.length) l2) := by rw [ih (ii + 1)]
      _ = (itemLines ii k it ++ show_group_items_from (ii + 1) rest) ++
            show_group_items_from (ii + 1 + rest.length) l2 :=
          (List.append_assoc _ _ _).symm
      _ = show_group_items_from ii ((k, it) :: rest) ++
            show_group_items_from (ii + ((k, it) :: rest).length) l2 := by
          have harith : ii + 1 + rest.length = ii + ((k, it) :: rest).length := by
            simp only [List.length_cons]
            omega
          rw [harith]
          rfl

/-- C9: for every top-level item that is an h5py Group, show_group_items
prints exactly two lines, the group-marker line and additionally a
'type=' line: the dict test is a separate if (not elif), its else runs
for the Group too, and a Group has no shape/dtype attributes. -/
theorem show_group_items_h5group_two_lines :
    (∀ (ii : Nat) (key : String),
      itemLines ii key HItem.h5group =
        [markerLine ii key, typeLine ii key (typeStr HItem.h5group)]) ∧
    (∀ (pre post : List (String × HItem)) (key : String),
      show_group_items (pre ++ (key, HItem.h5group) :: post) =
        show_group_items_from 0 pre ++
          (markerLine pre.length key ::
            typeLine pre.length key (typeStr HItem.h5group) ::
              show_group_items_from (pre.length + 1) post)) := by
  constructor
  · intro ii key
    rfl
  · intro pre post key
    rw [show_group_items, show_group_items_from_append ((key, HItem.h5group) :: post) pre 0]
    simp [show_group_items_from, itemLines, isH5Group, isPyDict, hasShapeDtype]

/-! ## Claim C10 -/

/-- C10: when the Confirm action fires while the in-progress polygon is
empty, _disconnect_mpl still appends the empty polygon to the completed
list and then attempts to rasterize, and the pts[:, 1] indexing on the
zero-point array raises instead of producing an empty mask (the raise
escapes with the append, the disconnect and the completed flag already
in place). -/
theorem disconnect_mpl_empty_poly_raises (st : Select_ROI)
    (h : st.selected_points_last_ROI = []) :
    ∃ stE, disconnect_mpl st = Except.error stE ∧
      stE.selected_points = st.selected_points ++ [[]] ∧
      stE.completed_status = true ∧
      computeMask st.img_h st.img_w ([] : List (ℚ × ℚ)) = none := by
  have h2 : (confirmPre st).selected_points = st.selected_points ++ [[]] := by
    simp [confirmPre, h]
  have h3 : (maskLoop st.img_h st.img_w (confirmPre st).selected_points).2 = false := by
    rw [h2]
    exact maskLoop_append_nil st.img_h st.img_w st.selected_points
  rcases hmk : maskLoop st.img_h st.img_w (confirmPre st).selected_points with ⟨ms, fl⟩
  rw [hmk] at h3
  subst h3
  refine ⟨{ confirmPre st with mask_frames := some ms }, ?_, h2, rfl, rfl⟩
  simp only [disconnect_mpl]
  rw [hmk]

theorem disconnect_mpl_empty_poly_raises_witness :
    ∃ stE, disconnect_mpl (Select_ROI.init 1 1) = Except.error stE ∧
      stE.selected_points = (Select_ROI.init 1 1).selected_points ++ [[]] ∧
      stE.completed_status = true ∧
      computeMask (Select_ROI.init 1 1).img_h (Select_ROI.init 1 1).img_w
        ([] : List (ℚ × ℚ)) = none :=
  disconnect_mpl_empty_poly_raises (Select_ROI.init 1 1) rfl

/-! ## Helper lemmas: simple_cmap positions -/

theorem positionsOf_channelPoints (c0 : ℚ) (rest : List ℚ) (n : Nat) :
    positionsOf (channelPoints c0 rest n) =
      0 :: (List.range rest.length).map (fun i : Nat => ((i : ℚ) + 1) / ((n : ℚ) - 1)) := by
  have h1 : (rest.enum.map (fun p : Nat × ℚ =>
      (((p.1 : ℚ) + 1) / ((n : ℚ) - 1), p.2, p.2))).map (fun p => p.1) =
      (List.range rest.length).map (fun i : Nat => ((i : ℚ) + 1) / ((n : ℚ) - 1)) := by
    rw [← List.enum_map_fst rest, List.map_map, List.map_map]
    rfl
  simp only [positionsOf, channelPoints, List.map_cons, h1]

theorem positions_pairwise (c0 : ℚ) (rest : List ℚ) (n : Nat) (hn : 2 ≤ n) :
    List.Pairwise (· < ·) (positionsOf (channelPoints c0 rest n)) := by
  rw [positionsOf_channelPoints]
  have hD : 0 < (n : ℚ) - 1 := by
    have h2 : (2 : ℚ) ≤ (n : ℚ) := by exact_mod_cast hn
    linarith
  rw [List.pairwise_cons]
  constructor
  · intro x hx
    rcases List.mem_map.mp hx with ⟨i, _, rfl⟩
    exact div_pos (by positivity) hD
  · refine (List.pairwise_map).mpr ?_
    refine (List.pairwise_lt_range _).imp ?_
    intro i j hij
    gcongr

theorem positions_head (c0 : ℚ) (rest : List ℚ) (n : Nat) :
    (positionsOf (channelPoints c0 rest n)).head? = some 0 := by
  rw [positionsOf_channelPoints]
  rfl

theorem positions_getLast (c0 : ℚ) (rest : List ℚ) (n : Nat) (hn : 2 ≤ n)
    (hlen : rest.length = n - 1) :
    (positionsOf (channelPoints c0 rest n)).getLast? = some 1 := by
  rw [positionsOf_channelPoints]
  obtain ⟨k, rfl⟩ : ∃ k, n = k + 2 := ⟨n - 2, by omega⟩
  have hlen2 : rest.length = k + 1 := by omega
  have hsplit : (0 : ℚ) :: (List.range (k + 1)).map
        (fun i : Nat => ((i : ℚ) + 1) / (((k + 2 : Nat) : ℚ) - 1)) =
      ((0 : ℚ) :: (List.range k).map
        (fun i : Nat => ((i : ℚ) + 1) / (((k + 2 : Nat) : ℚ) - 1))) ++
        [((k : ℚ) + 1) / (((k + 2 : Nat) : ℚ) - 1)] := by
    rw [List.range_succ, List.map_append]
    rfl
  rw [hlen2, hsplit, List.getLast?_concat]
  have hden : ((k + 2 : Nat) : ℚ) - 1 = (k : ℚ) + 1 := by push_cast; ring
  rw [hden, div_self (by positivity)]

/-! ## Claim C7 -/

/-- C7: with fewer than two colors simple_cmap raises ValueError 'Must
specify at least two colors' and builds nothing; with at least two it
succeeds and the control-point positions are the same for all three
channels, strictly increasing, starting at 0 and ending at 1. -/
theorem simple_cmap_color_count (colors : List (ℚ × ℚ × ℚ)) (und ovr bd : ℚ × ℚ × ℚ)
    (nm : String) :
    (colors.length ≤ 1 →
      simple_cmap colors und ovr bd nm = Except.error "Must specify at least two colors") ∧
    (2 ≤ colors.length →
      ∃ cm, simple_cmap colors und ovr bd nm = Except.ok cm ∧
        positionsOf cm.red = positionsOf cm.green ∧
        positionsOf cm.green = positionsOf cm.blue ∧
        List.Pairwise (· < ·) (positionsOf cm.red) ∧
        (positionsOf cm.red).head? = some 0 ∧
        (positionsOf cm.red).getLast? = some 1) := by
  constructor
  · intro h
    simp [simple_cmap, h]
  · intro h
    match colors with
    | [] => simp at h
    | c0 :: cs =>
      have hno : ¬((c0 :: cs).length ≤ 1) := by
        simp only [List.length_cons] at h ⊢
        omega
      have hok : simple_cmap (c0 :: cs) und ovr bd nm = Except.ok
          { red := channelPoints c0.1 (cs.map (fun c => c.1)) (c0 :: cs).length
            green := channelPoints c0.2.1 (cs.map (fun c => c.2.1)) (c0 :: cs).length
            blue := channelPoints c0.2.2 (cs.map (fun c => c.2.2)) (c0 :: cs).length
            under := und
            over := ovr
            bad := bd
            name := nm } := by
        unfold simple_cmap
        rw [if_neg hno]
      refine ⟨_, hok, ?_, ?_, ?_, ?_, ?_⟩
      · rw [positionsOf_channelPoints, positionsOf_channelPoints]
        simp
      · rw [positionsOf_channelPoints, positionsOf_channelPoints]
        simp
      · exact positions_pairwise _ _ _ h
      · exact positions_head _ _ _
      · refine positions_getLast _ _ _ h ?_
        simp only [List.length_map, List.length_cons]
        omega

theorem simple_cmap_color_count_witness :
    simple_cmap ([] : List (ℚ × ℚ × ℚ)) (0, 0, 0) ((1 : ℚ)/2, 1/2, 1/2)
        ((9 : ℚ)/10, 9/10, 9/10) "none" =
      Except.error "Must specify at least two colors" ∧
    (∃ cm, simple_cmap [((1 : ℚ), 0, 0), ((0 : ℚ), 0, 1)] (0, 0, 0)
          ((1 : ℚ)/2, 1/2, 1/2) ((9 : ℚ)/10, 9/10, 9/10) "none" = Except.ok cm ∧
        positionsOf cm.red = positionsOf cm.green ∧
        positionsOf cm.green = positionsOf cm.blue ∧
        List.Pairwise (· < ·) (positionsOf cm.red) ∧
        (positionsOf cm.red).head? = some 0 ∧
        (positionsOf cm.red).getLast? = some 1) :=
  ⟨(simple_cmap_color_count [] _ _ _ "none").1 (by decide),
   (simple_cmap_color_count [((1 : ℚ), 0, 0), ((0 : ℚ), 0, 1)] _ _ _ "none").2
     (by decide)⟩

/-! ## Claim C8 -/

/-- C8: the colormap simple_cmap builds from two colors places the first
at position 0.0 and the second at position 1.0, and its piecewise-linear
evaluation at the endpoints returns exactly those two colors. -/
theorem simple_cmap_two_color_endpoints (c0 c1 und ovr bd : ℚ × ℚ × ℚ) (nm : String) :
    (simple_cmap [c0, c1] und ovr bd nm).map
        (fun cm => (evalCmap cm 0, evalCmap cm 1)) = Except.ok (c0, c1) ∧
    (simple_cmap [c0, c1] und ovr bd nm).map (fun cm => positionsOf cm.red) =
      Except.ok [0, 1] := by
  have hok : simple_cmap [c0, c1] und ovr bd nm = Except.ok
      { red := [(0, c0.1, c0.1), (1, c1.1, c1.1)]
        green := [(0, c0.2.1, c0.2.1), (1, c1.2.1, c1.2.1)]
        blue := [(0, c0.2.2, c0.2.2), (1, c1.2.2, c1.2.2)]
        under := und
        over := ovr
        bad := bd
        name := nm } := by
    unfold simple_cmap
    rw [if_neg (by norm_num)]
    norm_num [channelPoints, List.enum]
  rw [hok]
  constructor
  · simp only [Except.map, evalCmap, evalSegments, evalAbove]
    norm_num
  · simp only [Except.map, positionsOf]
    norm_num

/-! ## Claim C3: helper evaluations on the concrete run -/

theorem computeMask_unclipped_raises :
    computeMask 1 1 [((0 : ℚ), (0 : ℚ)), (2, 0), (0, 2)] = none := by
  norm_num [computeMask, filledPixels, coordBound, natBound, pointInPoly, polyEdges,
    crossesRay, List.range, List.range.loop, List.flatMap, List.filter, List.flatten]

theorem roi_eval_once : disconnect_mpl roiSt0 = Except.ok roiSt1 := by
  norm_num [roiSt1, roiSt0, disconnect_mpl, confirmPre, maskLoop, computeMask,
    filledPixels, coordBound, natBound, pointInPoly, polyEdges, crossesRay,
    Except.toOption, List.range, List.range.loop, List.flatMap, List.filter,
    List.flatten]

theorem roi_eval_twice : disconnect_mpl roiSt1 = Except.ok roiSt2 := by
  norm_num [roiSt2, roiSt1, roiSt0, disconnect_mpl, confirmPre, maskLoop, computeMask,
    filledPixels, coordBound, natBound, pointInPoly, polyEdges, crossesRay,
    Except.toOption, List.range, List.range.loop, List.flatMap, List.filter,
    List.flatten]

theorem roi_masks_once : roiSt1.mask_frames =
    some [[[true, true, false], [true, false, false], [false, false, false]]] := by
  norm_num [roiSt1, roiSt0, disconnect_mpl, confirmPre, maskLoop, computeMask,
    filledPixels, coordBound, natBound, pointInPoly, polyEdges, crossesRay,
    Except.toOption, List.range, List.range.loop, List.flatMap, List.filter,
    List.flatten]

theorem roi_masks_twice : roiSt2.mask_frames =
    some [[[true, true, false], [true, false, false], [false, false, false]],
          [[true, true, false], [true, false, false], [false, false, false]]] := by
  norm_num [roiSt2, roiSt1, roiSt0, disconnect_mpl, confirmPre, maskLoop, computeMask,
    filledPixels, coordBound, natBound, pointInPoly, polyEdges, crossesRay,
    Except.toOption, List.range, List.range.loop, List.flatMap, List.filter,
    List.flatten]

theorem roi_completed_once : roiSt1.completed_status = true := by
  norm_num [roiSt1, roiSt0, disconnect_mpl, confirmPre, maskLoop, computeMask,
    filledPixels, coordBound, natBound, pointInPoly, polyEdges, crossesRay,
    Except.toOption, List.range, List.range.loop, List.flatMap, List.filter,
    List.flatten]

/-- C3 counterexample: a state that has reached "finished" through the
Confirm action, on which the still-active Confirm button is pressed
again; _disconnect_mpl appends the unchanged in-progress polygon once
more and rebuilds mask_frames, so the mask list held after "finished"
does change under a subsequent available operation. -/
theorem confirm_twice_changes_mask_frames :
    disconnect_mpl roiSt0 = Except.ok roiSt1 ∧
    roiSt1.completed_status = true ∧
    disconnect_mpl roiSt1 = Except.ok roiSt2 ∧
    roiSt2.mask_frames ≠ roiSt1.mask_frames :=
  ⟨roi_eval_once, roi_completed_once, roi_eval_twice, by
    rw [roi_masks_once, roi_masks_twice]
    simp⟩

/-- C3 (amended): when the Confirm action completes, mask_frames holds
exactly one boolean mask per completed polygon (its length equals that
of selected_points) and every mask has the source image's first two
dimensions; afterwards pointer clicks are no longer delivered (the
callback is disconnected) and New-ROI presses leave the mask list
unchanged.  (As stated the claim fails: a repeated press of the
still-connected Confirm button rebuilds and replaces the mask list, see
the counterexample.) -/
theorem disconnect_mpl_masks (st st' : Select_ROI)
    (h : disconnect_mpl st = Except.ok st') :
    ∃ ms, st'.mask_frames = some ms ∧
      ms.length = st'.selected_points.length ∧
      (∀ m ∈ ms, m.length = st.img_h ∧ ∀ row ∈ m, row.length = st.img_w) ∧
      (∀ ev, deliverClick st' ev = st') ∧
      (new_ROI st').mask_frames = st'.mask_frames := by
  simp only [disconnect_mpl] at h
  rcases hmk : maskLoop st.img_h st.img_w (confirmPre st).selected_points with ⟨ms, fl⟩
  rw [hmk] at h
  cases fl with
  | false => simp at h
  | true =>
    rw [Except.ok.injEq] at h
    subst h
    refine ⟨ms, rfl, ?_, ?_, ?_, rfl⟩
    · have hl := maskLoop_true_length st.img_h st.img_w
        (confirmPre st).selected_points (by rw [hmk])
      rw [hmk] at hl
      exact hl
    · intro m hm
      have hm' : m ∈ (maskLoop st.img_h st.img_w (confirmPre st).selected_points).1 := by
        rw [hmk]
        exact hm
      exact maskLoop_mem_dims st.img_h st.img_w _ m hm'
    · intro ev
      simp [deliverClick, confirmPre]

theorem disconnect_mpl_masks_witness :
    ∃ ms, roiSt1.mask_frames = some ms ∧
      ms.length = roiSt1.selected_points.length ∧
      (∀ m ∈ ms, m.length = roiSt0.img_h ∧ ∀ row ∈ m, row.length = roiSt0.img_w) ∧
      (∀ ev, deliverClick roiSt1 ev = roiSt1) ∧
      (new_ROI roiSt1).mask_frames = roiSt1.mask_frames :=
  disconnect_mpl_masks roiSt0 roiSt1 roi_eval_once

/-! ## Helper lemmas: tree surgery for make_h5_tree -/

theorem optionBindSome {α : Type} (x : Option α) :
    x.bind (fun a => some a) = x := by
  cases x <;> rfl

theorem findEntry_append_of_none (es es2 : List (String × H5Obj)) (k : String)
    (h : findEntry es k = none) : findEntry (es ++ es2) k = findEntry es2 k := by
  induction es with
  | nil => rfl
  | cons p rest ih =>
    obtain ⟨k', t⟩ := p
    by_cases hk : k' = k
    · simp [findEntry, hk] at h
    · simp only [findEntry, if_neg hk] at h
      simp only [List.cons_append, findEntry, if_neg hk]
      exact ih h

theorem replaceEntry_congr (k : String) {f g : H5Obj → Option H5Obj}
    (h : ∀ t, f t = g t) : ∀ es : List (String × H5Obj),
    replaceEntry k f es = replaceEntry k g es
  | [] => rfl
  | (k', t) :: rest => by
    simp only [replaceEntry, h t, replaceEntry_congr k h rest]

theorem replaceEntry_bind (k : String) (f g : H5Obj → Option H5Obj) :
    ∀ es : List (String × H5Obj),
    (replaceEntry k f es).bind (fun es' => replaceEntry k g es') =
      replaceEntry k (fun t => (f t).bind g) es
  | [] => rfl
  | (k', t) :: rest => by
    by_cases hk : k' = k
    · cases hft : f t with
      | none => simp [replaceEntry, if_pos hk, hft]
      | some t' => simp [replaceEntry, if_pos hk, hft]
    · have ih := replaceEntry_bind k f g rest
      cases hfr : replaceEntry k f rest with
      | none =>
        rw [hfr] at ih
        simp only [Option.none_bind] at ih
        simp [replaceEntry, if_neg hk, hfr, ← ih]
      | some r' =>
        rw [hfr] at ih
        simp only [Option.some_bind] at ih
        simp [replaceEntry, if_neg hk, hfr, ← ih]

theorem replaceEntry_append_fresh (k : String) (f : H5Obj → Option H5Obj)
    (t : H5Obj) : ∀ es : List (String × H5Obj), findEntry es k = none →
    replaceEntry k f (es ++ [(k, t)]) = (f t).map (fun t' => es ++ [(k, t')])
  | [], _ => by simp [replaceEntry]
  | (k', u) :: rest, h => by
    have hk : ¬(k' = k) := by
      intro hkk
      simp [findEntry, hkk] at h
    have h' : findEntry rest k = none := by
      simpa [findEntry, hk] using h
    have ih := replaceEntry_append_fresh k f t rest h'
    have hstep : replaceEntry k f (((k', u) :: rest) ++ [(k, t)]) =
        (replaceEntry k f (rest ++ [(k, t)])).map (fun rest' => (k', u) :: rest') := by
      simp [replaceEntry, if_neg hk]
    rw [hstep, ih]
    cases f t <;> simp

theorem applyGroup_congr {f g : List (String × H5Obj) → Option (List (String × H5Obj))}
    (h : ∀ es, f es = g es) (t : H5Obj) : applyGroup f t = applyGroup g t := by
  cases t <;> simp [applyGroup, h]

theorem applyGroup_bind (f g : List (String × H5Obj) → Option (List (String × H5Obj)))
    (t : H5Obj) :
    (applyGroup f t).bind (fun t' => applyGroup g t') =
      applyGroup (fun es => (f es).bind g) t := by
  cases t with
  | dset v => rfl
  | group es =>
    cases hf : f es with
    | none => simp [applyGroup, hf]
    | some es' => simp [applyGroup, hf]

theorem updateAt_congr {f g : List (String × H5Obj) → Option (List (String × H5Obj))}
    (h : ∀ es, f es = g es) :
    ∀ (t : H5Obj) (gs : List String), updateAt t gs f = updateAt t gs g
  | t, [] => applyGroup_congr h t
  | t, k :: ks => by
    simp only [updateAt]
    exact applyGroup_congr (fun es =>
      replaceEntry_congr k (fun sub => updateAt_congr h sub ks) es) t

theorem updateAt_bind (f g : List (String × H5Obj) → Option (List (String × H5Obj))) :
    ∀ (t : H5Obj) (gs : List String),
    (updateAt t gs f).bind (fun t1 => updateAt t1 gs g) =
      updateAt t gs (fun es => (f es).bind g)
  | t, [] => by
    simp only [updateAt]
    exact applyGroup_bind f g t
  | t, k :: ks => by
    simp only [updateAt]
    rw [applyGroup_bind]
    refine applyGroup_congr (fun es => ?_) t
    rw [replaceEntry_bind]
    exact replaceEntry_congr k (fun sub => updateAt_bind f g sub ks) es

theorem updateAt_nest (f : List (String × H5Obj) → Option (List (String × H5Obj)))
    (k : String) :
    ∀ (t : H5Obj) (gs : List String),
    updateAt t (gs ++ [k]) f =
      updateAt t gs (fun es => replaceEntry k (applyGroup f) es)
  | t, [] => by
    simp only [List.nil_append, updateAt]
  | t, g :: gs => by
    simp only [List.cons_append, updateAt]
    exact applyGroup_congr (fun es =>
      replaceEntry_congr g (fun sub => updateAt_nest f k sub gs) es) t

theorem updateAt_keep_of_some
    (F : List (String × H5Obj) → Option (List (String × H5Obj)))
    (t t1 : H5Obj) (gs : List String) (hA : updateAt t gs F = some t1) :
    updateAt t1 gs (fun es => some es) = some t1 := by
  have hcomp := updateAt_bind F (fun es => some es) t gs
  rw [updateAt_congr (fun es => optionBindSome (F es)) t gs, hA] at hcomp
  simpa using hcomp

theorem updateAt_sub_valid (key : String) (t t1 : H5Obj) (gs : List String)
    (hA : updateAt t gs (fun es => if (findEntry es key).isSome then none
          else some (es ++ [(key, H5Obj.group [])])) = some t1) :
    updateAt t1 (gs ++ [key]) (fun es => some es) = some t1 := by
  rw [updateAt_nest]
  have hpt : ∀ es : List (String × H5Obj),
      ((if (findEntry es key).isSome then none
        else some (es ++ [(key, H5Obj.group [])])).bind
          (fun es1 => replaceEntry key (applyGroup (fun es2 => some es2)) es1)) =
      (if (findEntry es key).isSome then none
       else some (es ++ [(key, H5Obj.group [])])) := by
    intro es
    by_cases hfe : (findEntry es key).isSome
    · simp [hfe]
    · have hnone : findEntry es key = none := Option.not_isSome_iff_eq_none.mp hfe
      have hrep := replaceEntry_append_fresh key
        (applyGroup (fun es2 => some es2)) (H5Obj.group []) es hnone
      simp [hnone, hrep, applyGroup]
  have hcomp := updateAt_bind
    (fun es => if (findEntry es key).isSome then none
     else some (es ++ [(key, H5Obj.group [])]))
    (fun es1 => replaceEntry key (applyGroup (fun es2 => some es2)) es1) t gs
  rw [updateAt_congr hpt t gs, hA] at hcomp
  simpa using hcomp

theorem make_eq_updateAt :
    ∀ (d : List (String × PyVal)) (t : H5Obj) (gs : List String),
    updateAt t gs (fun es => some es) = some t →
    make_h5_tree d t gs = updateAt t gs (fun es => buildEntries d es)
  | [], t, gs, H => by
    simp only [make_h5_tree, buildEntries]
    exact H.symm
  | (key, PyVal.data v) :: rest, t, gs, H => by
    simp only [make_h5_tree, buildEntries, createDataset]
    have hsplit := updateAt_bind
      (fun es => if (findEntry es key).isSome then none
       else some (es ++ [(key, H5Obj.dset v)]))
      (fun es1 => buildEntries rest es1) t gs
    rw [← hsplit]
    cases hA : updateAt t gs (fun es => if (findEntry es key).isSome then none
        else some (es ++ [(key, H5Obj.dset v)])) with
    | none => rfl
    | some t1 =>
      simp only [Option.some_bind]
      exact make_eq_updateAt rest t1 gs (updateAt_keep_of_some _ t t1 gs hA)
  | (key, PyVal.dict sub) :: rest, t, gs, H => by
    simp only [make_h5_tree, buildEntries, createGroup]
    have hsplit := updateAt_bind
      (fun es => if (findEntry es key).isSome then none
       else some (es ++ [(key, H5Obj.group [])]))
      (fun es1 => (replaceEntry key
        (applyGroup (fun es' => buildEntries sub es')) es1).bind
          (fun es2 => buildEntries rest es2)) t gs
    rw [← hsplit]
    cases hA : updateAt t gs (fun es => if (findEntry es key).isSome then none
        else some (es ++ [(key, H5Obj.group [])])) with
    | none => rfl
    | some t1 =>
      simp only [Option.some_bind]
      have hsplit2 := updateAt_bind
        (fun es1 => replaceEntry key
          (applyGroup (fun es' => buildEntries sub es')) es1)
        (fun es2 => buildEntries rest es2) t1 gs
      rw [← hsplit2]
      have hnest := updateAt_nest (fun es' => buildEntries sub es') key t1 gs
      rw [← hnest]
      have hsub : make_h5_tree sub t1 (gs ++ [key]) =
          updateAt t1 (gs ++ [key]) (fun es => buildEntries sub es) :=
        make_eq_updateAt sub t1 (gs ++ [key]) (updateAt_sub_valid key t t1 gs hA)
      rw [← hsub]
      cases hB : make_h5_tree sub t1 (gs ++ [key]) with
      | none => rfl
      | some t2 =>
        simp only [Option.some_bind]
        refine make_eq_updateAt rest t2 gs ?_
        refine updateAt_keep_of_some
          (fun es1 => replaceEntry key
            (applyGroup (fun es' => buildEntries sub es')) es1) t1 t2 gs ?_
        rw [← hnest, ← hsub]
        exact hB

/-! ## Helper lemmas: well-formed dicts mirror into the tree -/

theorem hasKeyPy_false_ne (k : String) (d : List (String × PyVal))
    (hf : hasKeyPy k d = false) : ∀ p ∈ d, p.1 ≠ k := by
  induction d with
  | nil => intro p hp; simp at hp
  | cons q rest ih =>
    obtain ⟨k0, v0⟩ := q
    simp only [hasKeyPy, Bool.or_eq_false_iff] at hf
    obtain ⟨hf0, hfr⟩ := hf
    intro p hp
    rcases List.mem_cons.mp hp with rfl | hmem
    · exact beq_eq_false_iff_ne.mp hf0
    · exact ih hfr p hmem

theorem wfEntries_cons (k : String) (v : PyVal) (rest : List (String × PyVal))
    (h : wfEntries ((k, v) :: rest) = true) :
    hasKeyPy k rest = false ∧ wfVal v = true ∧ wfEntries rest = true := by
  simp only [wfEntries, Bool.and_eq_true, Bool.not_eq_true'] at h
  exact ⟨h.1.1, h.1.2, h.2⟩

theorem buildEntries_wf :
    ∀ (d : List (String × PyVal)) (es : List (String × H5Obj)),
    wfEntries d = true →
    (∀ p ∈ d, findEntry es p.1 = none) →
    buildEntries d es = some (es ++ mirrorEntries d)
  | [], es, _, _ => by
    simp [buildEntries, mirrorEntries]
  | (key, PyVal.data v) :: rest, es, hwf, hdisj => by
    obtain ⟨hk, _, hwr⟩ := wfEntries_cons key (PyVal.data v) rest hwf
    have hd : findEntry es key = none :=
      hdisj (key, PyVal.data v) (List.mem_cons_self _ _)
    have hdisj2 : ∀ p ∈ rest, findEntry (es ++ [(key, H5Obj.dset v)]) p.1 = none := by
      intro p hp
      rw [findEntry_append_of_none es _ p.1 (hdisj p (List.mem_cons_of_mem _ hp))]
      have hne : p.1 ≠ key := hasKeyPy_false_ne key rest hk p hp
      simp [findEntry, Ne.symm hne]
    simp only [buildEntries, hd, Option.isSome_none, Bool.false_eq_true, if_false,
      Option.some_bind]
    rw [buildEntries_wf rest (es ++ [(key, H5Obj.dset v)]) hwr hdisj2]
    simp only [mirrorEntries, mirrorVal]
    rw [List.append_assoc]
    rfl
  | (key, PyVal.dict sub) :: rest, es, hwf, hdisj => by
    obtain ⟨hk, hwv, hwr⟩ := wfEntries_cons key (PyVal.dict sub) rest hwf
    simp only [wfVal] at hwv
    have hd : findEntry es key = none :=
      hdisj (key, PyVal.dict sub) (List.mem_cons_self _ _)
    have hsub : buildEntries sub [] = some (mirrorEntries sub) := by
      have hb := buildEntries_wf sub [] hwv (fun p _ => rfl)
      simpa using hb
    have hrep := replaceEntry_append_fresh key
      (applyGroup (fun es' => buildEntries sub es')) (H5Obj.group []) es hd
    have happ : applyGroup (fun es' => buildEntries sub es') (H5Obj.group []) =
        some (H5Obj.group (mirrorEntries sub)) := by
      simp [applyGroup, hsub]
    have hdisj2 : ∀ p ∈ rest,
        findEntry (es ++ [(key, H5Obj.group (mirrorEntries sub))]) p.1 = none := by
      intro p hp
      rw [findEntry_append_of_none es _ p.1 (hdisj p (List.mem_cons_of_mem _ hp))]
      have hne : p.1 ≠ key := hasKeyPy_false_ne key rest hk p hp
      simp [findEntry, Ne.symm hne]
    simp only [buildEntries, hd, Option.isSome_none, Bool.false_eq_true, if_false,
      Option.some_bind]
    rw [hrep, happ]
    simp only [Option.map_some', Option.some_bind]
    rw [buildEntries_wf rest (es ++ [(key, H5Obj.group (mirrorEntries sub))]) hwr hdisj2]
    simp only [mirrorEntries, mirrorVal]
    rw [List.append_assoc]
    rfl

theorem make_h5_tree_mirror (d : List (String × PyVal)) (hwf : wfEntries d = true) :
    make_h5_tree d (H5Obj.group []) [] = some (H5Obj.group (mirrorEntries d)) := by
  rw [make_eq_updateAt d (H5Obj.group []) [] rfl]
  simp only [updateAt, applyGroup]
  rw [buildEntries_wf d [] hwf (fun p _ => rfl)]
  simp

theorem findEntry_mirror :
    ∀ (d : List (String × PyVal)) (key : String) (val : PyVal),
    wfEntries d = true → (key, val) ∈ d →
    findEntry (mirrorEntries d) key = some (mirrorVal val)
  | (k0, v0) :: rest, key, val, hwf, hm => by
    obtain ⟨hk, _, hwr⟩ := wfEntries_cons k0 v0 rest hwf
    rcases List.mem_cons.mp hm with heq | hmem
    · obtain ⟨rfl, rfl⟩ := Prod.mk.injEq k0 v0 key val ▸ heq.symm
      simp [mirrorEntries, findEntry]
    · have hne : key ≠ k0 := hasKeyPy_false_ne k0 rest hk (key, val) hmem
      simp only [mirrorEntries, findEntry]
      rw [if_neg (Ne.symm hne)]
      exact findEntry_mirror rest key val hwr hmem

mutual
theorem readVal_mirrorVal : ∀ v : PyVal, readVal (mirrorVal v) = v
  | PyVal.data _ => rfl
  | PyVal.dict es => by
    simp only [mirrorVal, readVal, readEntries_mirrorEntries es]

theorem readEntries_mirrorEntries : ∀ d : List (String × PyVal),
    readEntries (mirrorEntries d) = d
  | [] => rfl
  | (k, v) :: rest => by
    simp only [mirrorEntries, readEntries, readVal_mirrorVal v,
      readEntries_mirrorEntries rest]
end

theorem iter_mirror :
    ∀ (d : List (String × PyVal)) (pre : String),
    h5py_dataset_iterator (mirrorEntries d) pre = flattenLeaves d pre
  | [], _ => by simp [mirrorEntries, h5py_dataset_iterator, flattenLeaves]
  | (k, PyVal.data v) :: rest, pre => by
    simp only [mirrorEntries, mirrorVal, h5py_dataset_iterator, flattenLeaves,
      iter_mirror rest pre]
  | (k, PyVal.dict sub) :: rest, pre => by
    simp only [mirrorEntries, mirrorVal, h5py_dataset_iterator, flattenLeaves,
      iter_mirror sub (pre ++ "/" ++ k), iter_mirror rest pre]

/-! ## Claim C1 -/

/-- C1: on a well-formed nested mapping (distinct keys per level, as in
every Python dict), make_h5_tree run on a fresh root visits every
(key, value) item: a mapping value becomes a group named key holding the
recursive image of the sub-mapping, any other value becomes a dataset
named key at the current group path; the written root is exactly the
mirror image of the mapping. -/
theorem make_h5_tree_spec (d : List (String × PyVal)) (hwf : wfEntries d = true) :
    make_h5_tree d (H5Obj.group []) [] = some (H5Obj.group (mirrorEntries d)) ∧
    ∀ key val, (key, val) ∈ d →
      findEntry (mirrorEntries d) key =
        some (match val with
              | PyVal.dict sub => H5Obj.group (mirrorEntries sub)
              | PyVal.data v => H5Obj.dset v) := by
  refine ⟨make_h5_tree_mirror d hwf, ?_⟩
  intro key val hm
  rw [findEntry_mirror d key val hwf hm]
  cases val <;> rfl

theorem make_h5_tree_spec_witness :
    make_h5_tree demoDict (H5Obj.group []) [] =
        some (H5Obj.group (mirrorEntries demoDict)) ∧
    ∀ key val, (key, val) ∈ demoDict →
      findEntry (mirrorEntries demoDict) key =
        some (match val with
              | PyVal.dict sub => H5Obj.group (mirrorEntries sub)
              | PyVal.data v => H5Obj.dset v) :=
  make_h5_tree_spec demoDict (by simp [wfEntries, wfVal, hasKeyPy])

/-! ## Claim C6 -/

/-- C6: writing a well-formed nested mapping with make_h5_tree into a
fresh root and reading the result back is the identity: the matching
reader readEntries recovers the mapping exactly (group structure, keys
and leaf values), and h5py_dataset_iterator enumerates precisely the
mapping's leaves at their slash-joined key paths. -/
theorem write_read_roundtrip (d : List (String × PyVal)) (hwf : wfEntries d = true) :
    ∃ es, make_h5_tree d (H5Obj.group []) [] = some (H5Obj.group es) ∧
      readEntries es = d ∧
      ∀ pre : String, h5py_dataset_iterator es pre = flattenLeaves d pre :=
  ⟨mirrorEntries d, make_h5_tree_mirror d hwf, readEntries_mirrorEntries d,
    fun pre => iter_mirror d pre⟩

theorem write_read_roundtrip_witness :
    ∃ es, make_h5_tree demoDict (H5Obj.group []) [] = some (H5Obj.group es) ∧
      readEntries es = demoDict ∧
      ∀ pre : String, h5py_dataset_iterator es pre = flattenLeaves demoDict pre :=
  write_read_roundtrip demoDict (by simp [wfEntries, wfVal, hasKeyPy])
